import Mathlib

/-!
Verification of the client-side sandbox orchestrator with persistent snapshot
caching (src/lib/webcontainer of the repository): a shallow embedding of
utils.ts (dependency-change detector), OPFSStorage.ts (snapshot store),
PerformanceMonitor.ts (metrics collector) and WebContainerManager.ts
(orchestrator), together with theorems settling the frozen claims.

Modelling conventions:
- JavaScript strings are Lean String; file contents are modelled as strings
  (a Uint8Array content is decoded to a string by the source before use).
- JSON.parse is modelled by an executable strict JSON parser returning
  Option Json; a JSON number is kept as its raw lexeme (no claim compares
  numeric values, and distinct lexemes of equal value never arise here).
- External collaborators (the sandbox runtime, Web Crypto sha256, the
  scheduler clock) are oracle fields of an Env record; the ANSI-stripping
  regex of utils.stripAnsi is an Env function field, since no claim depends
  on the text transformation itself.
- Effects observable by the outside world (runtime boot, process spawns,
  mounts, event emissions) are appended to a log inside the state.
-/

/-! # JSON values and a strict JSON parser (model of JSON.parse) -/

inductive Json where
  | null : Json
  | bool : Bool → Json
  | num : String → Json
  | str : String → Json
  | arr : List Json → Json
  | obj : List (String × Json) → Json

def lbraceC : Char := Char.ofNat 123
def rbraceC : Char := Char.ofNat 125

def isJsonWs (c : Char) : Bool :=
  c = ' ' || c = '\t' || c = '\n' || c = '\r'

def skipWs : List Char → List Char
  | [] => []
  | c :: cs => if isJsonWs c then skipWs cs else c :: cs

def isDigitC (c : Char) : Bool := '0' ≤ c && c ≤ '9'

def hexVal (c : Char) : Option Nat :=
  let n := c.toNat
  if 48 ≤ n && n ≤ 57 then some (n - 48)
  else if 97 ≤ n && n ≤ 102 then some (n - 87)
  else if 65 ≤ n && n ≤ 70 then some (n - 55)
  else none

/-- Lex the digits prefix of a character list; returns digits and the rest. -/
def lexDigits : List Char → List Char × List Char
  | [] => ([], [])
  | c :: cs =>
    if isDigitC c then
      let r := lexDigits cs
      (c :: r.1, r.2)
    else ([], c :: cs)

/-- Lex the optional fraction and exponent of a number lexeme; acc holds the
sign and integer part already read. -/
def lexNumTail (acc : List Char) (cs : List Char) : Option (String × List Char) :=
  let fracRes : Option (List Char × List Char) :=
    match cs with
    | '.' :: rest =>
      match lexDigits rest with
      | ([], _) => none
      | (ds, rest2) => some (acc ++ '.' :: ds, rest2)
    | _ => some (acc, cs)
  match fracRes with
  | none => none
  | some (acc2, cs2) =>
    match cs2 with
    | c :: rest =>
      if c = 'e' || c = 'E' then
        let (sgn, rest1) :=
          match rest with
          | s :: rest' => if s = '+' || s = '-' then (([s] : List Char), rest') else ([], rest)
          | [] => (([] : List Char), rest)
        match lexDigits rest1 with
        | ([], _) => none
        | (ds, rest2) => some (String.mk (acc2 ++ c :: (sgn ++ ds)), rest2)
      else some (String.mk acc2, cs2)
    | [] => some (String.mk acc2, cs2)

/-- Lex a JSON number lexeme (sign, int, optional fraction and exponent);
a leading zero must not be followed by more integer digits. -/
def lexNumber (cs : List Char) : Option (String × List Char) :=
  let (sign, cs1) :=
    match cs with
    | '-' :: rest => ((['-'] : List Char), rest)
    | _ => ([], cs)
  match cs1 with
  | [] => none
  | c :: rest =>
    if !isDigitC c then none
    else if c = '0' then lexNumTail (sign ++ ['0']) rest
    else
      let r := lexDigits (c :: rest)
      lexNumTail (sign ++ r.1) r.2

/-- Lex a JSON string body after the opening quote, decoding escapes. -/
def lexString (fuel : Nat) (cs : List Char) (acc : List Char) : Option (String × List Char) :=
  match fuel with
  | 0 => none
  | fuel + 1 =>
    match cs with
    | [] => none
    | '"' :: rest => some (String.mk acc.reverse, rest)
    | '\\' :: e :: rest =>
      match e with
      | '"' => lexString fuel rest ('"' :: acc)
      | '\\' => lexString fuel rest ('\\' :: acc)
      | '/' => lexString fuel rest ('/' :: acc)
      | 'b' => lexString fuel rest (Char.ofNat 8 :: acc)
      | 'f' => lexString fuel rest (Char.ofNat 12 :: acc)
      | 'n' => lexString fuel rest ('\n' :: acc)
      | 'r' => lexString fuel rest ('\r' :: acc)
      | 't' => lexString fuel rest ('\t' :: acc)
      | 'u' =>
        match rest with
        | h1 :: h2 :: h3 :: h4 :: rest2 =>
          match hexVal h1, hexVal h2, hexVal h3, hexVal h4 with
          | some a, some b, some c, some d =>
            lexString fuel rest2 (Char.ofNat (((a * 16 + b) * 16 + c) * 16 + d) :: acc)
          | _, _, _, _ => none
        | _ => none
      | _ => none
    | c :: rest =>
      if c.toNat < 32 then none else lexString fuel rest (c :: acc)

/-- Insert a key into an object field list: last value wins, first position
kept, as JSON.parse does for duplicate keys. -/
def objInsert (fields : List (String × Json)) (k : String) (v : Json) :
    List (String × Json) :=
  match fields with
  | [] => [(k, v)]
  | (k0, v0) :: rest =>
    if k0 = k then (k0, v) :: rest else (k0, v0) :: objInsert rest k v

mutual

/-- Parse one JSON value. Fuel decreases on every nested call; every call
consumes at least one input character, so fuel = input length + 2 suffices. -/
def parseVal (fuel : Nat) (cs : List Char) : Option (Json × List Char) :=
  match fuel with
  | 0 => none
  | fuel + 1 =>
    match skipWs cs with
    | [] => none
    | c :: rest =>
      if c = 'n' then
        match rest with
        | 'u' :: 'l' :: 'l' :: rest2 => some (Json.null, rest2)
        | _ => none
      else if c = 't' then
        match rest with
        | 'r' :: 'u' :: 'e' :: rest2 => some (Json.bool true, rest2)
        | _ => none
      else if c = 'f' then
        match rest with
        | 'a' :: 'l' :: 's' :: 'e' :: rest2 => some (Json.bool false, rest2)
        | _ => none
      else if c = '"' then
        match lexString (rest.length + 1) rest [] with
        | some (s, rest2) => some (Json.str s, rest2)
        | none => none
      else if c = lbraceC then
        parseMembers fuel rest [] true
      else if c = '[' then
        parseElems fuel rest [] true
      else if c = '-' || isDigitC c then
        match lexNumber (c :: rest) with
        | some (raw, rest2) => some (Json.num raw, rest2)
        | none => none
      else none

/-- Parse the members of an object after the opening brace. -/
def parseMembers (fuel : Nat) (cs : List Char) (acc : List (String × Json))
    (first : Bool) : Option (Json × List Char) :=
  match fuel with
  | 0 => none
  | fuel + 1 =>
    match skipWs cs with
    | [] => none
    | c :: rest =>
      if c = rbraceC && first then some (Json.obj acc, rest)
      else
        match (if c = '"' then lexString (rest.length + 1) rest [] else none) with
        | none => none
        | some (k, rest2) =>
          match skipWs rest2 with
          | ':' :: rest3 =>
            match parseVal fuel rest3 with
            | none => none
            | some (v, rest4) =>
              match skipWs rest4 with
              | ',' :: rest5 => parseMembers fuel rest5 (objInsert acc k v) false
              | c2 :: rest5 =>
                if c2 = rbraceC then some (Json.obj (objInsert acc k v), rest5)
                else none
              | [] => none
          | _ => none

/-- Parse the elements of an array after the opening bracket. -/
def parseElems (fuel : Nat) (cs : List Char) (acc : List Json)
    (first : Bool) : Option (Json × List Char) :=
  match fuel with
  | 0 => none
  | fuel + 1 =>
    match skipWs cs with
    | [] => none
    | c :: rest =>
      if c = ']' && first then some (Json.arr acc.reverse, rest)
      else
        match parseVal fuel (c :: rest) with
        | none => none
        | some (v, rest2) =>
          match skipWs rest2 with
          | ',' :: rest3 => parseElems fuel rest3 (v :: acc) false
          | ']' :: rest3 => some (Json.arr (v :: acc).reverse, rest3)
          | _ => none

end

/-- Model of JSON.parse: parse one value, require only whitespace after it. -/
def jsonParse (s : String) : Option Json :=
  let cs := s.toList
  match parseVal (cs.length + 2) cs with
  | some (v, rest) => if skipWs rest = [] then some v else none
  | none => none

/-! # Dependency maps and comparison (utils.ts: compareDependencies) -/

/-- A parsed dependency record: association list from package name to the
JSON value stored for it (a version string in a well-formed manifest). -/
abbrev DepMap : Type := List (String × Json)

/-- Property access deps[k] on a record, as used by compareDependencies. -/
def depLookup (d : DepMap) (k : String) : Option Json :=
  match d with
  | [] => none
  | (k0, v0) :: rest => if k0 = k then some v0 else depLookup rest k

/-- Object.keys of a record (insertion order). -/
def jsKeys (d : DepMap) : List String :=
  d.map Prod.fst

/-- Array.prototype.sort on string keys (lexicographic order). -/
def sortKeys (ks : List String) : List String :=
  List.insertionSort (· ≤ ·) ks

/-- JavaScript strict equality on JSON-derived values. Primitives compare by
value; objects and arrays compare by reference, and the two records handed to
compareDependencies always come from distinct JSON.parse calls, so their
object or array members are never identical references. -/
def jsStrictEq : Json → Json → Bool
  | Json.null, Json.null => true
  | Json.bool a, Json.bool b => a == b
  | Json.num a, Json.num b => a == b
  | Json.str a, Json.str b => a == b
  | _, _ => false

/-- Strict equality lifted to possibly-undefined property reads. -/
def jsStrictEqOpt : Option Json → Option Json → Bool
  | some a, some b => jsStrictEq a b
  | none, none => true
  | _, _ => false

/-- utils.ts compareDependencies: sort both key sets, compare lengths, then
compare key by key and value by value. -/
def compareDependencies (d1 d2 : DepMap) : Bool :=
  let keys1 := sortKeys (jsKeys d1)
  let keys2 := sortKeys (jsKeys d2)
  if keys1.length ≠ keys2.length then false
  else (keys1.zip keys2).all fun kk =>
    kk.1 == kk.2 && jsStrictEqOpt (depLookup d1 kk.1) (depLookup d2 kk.2)

/-! # File trees and the dependency-change detector (utils.ts) -/

inductive FNode where
  | file : String → FNode
  | directory : List (String × FNode) → FNode

/-- A FileTree is a mapping from path segment to file or directory node. -/
abbrev FileTree : Type := List (String × FNode)

def treeLookup (t : FileTree) (k : String) : Option FNode :=
  match t with
  | [] => none
  | (k0, n0) :: rest => if k0 = k then some n0 else treeLookup rest k

/-- utils.ts extractPackageJson: the contents of the package.json file node,
if present and truthy (an empty string is falsy in JavaScript). -/
def extractPackageJson (tree : FileTree) : Option String :=
  match treeLookup tree "package.json" with
  | some (FNode.file c) => if c = "" then none else some c
  | _ => none

/-- Property access pkg.name followed by the JavaScript fallback to an empty
record: the own enumerable properties of the stored value. An object yields
its fields; an array or string yields its index map; every other value
(including the falsy ones replaced by the literal empty record) has no own
enumerable properties. -/
def jsRecordFields (j : Json) (name : String) : DepMap :=
  match j with
  | Json.obj fields =>
    match depLookup fields name with
    | some (Json.obj fs) => fs
    | some (Json.arr xs) => (xs.enum.map fun p => (toString p.1, p.2))
    | some (Json.str s) =>
      (s.toList.enum.map fun p => (toString p.1, Json.str (String.mk [p.2])))
    | _ => []
  | _ => []

structure PkgDeps where
  dependencies : DepMap
  devDependencies : DepMap

/-- utils.ts parseDependencies: JSON.parse the manifest; on parse failure the
catch branch returns two empty records. -/
def parseDependencies (content : String) : PkgDeps :=
  match jsonParse content with
  | none => ⟨[], []⟩
  | some pkg => ⟨jsRecordFields pkg "dependencies", jsRecordFields pkg "devDependencies"⟩

/-- utils.ts hasDependencyChanged. -/
def hasDependencyChanged (oldTree : Option FileTree) (newTree : FileTree) : Bool :=
  match oldTree with
  | none => true
  | some ot =>
    match extractPackageJson ot, extractPackageJson newTree with
    | some oldC, some newC =>
      let oldDeps := parseDependencies oldC
      let newDeps := parseDependencies newC
      !compareDependencies oldDeps.dependencies newDeps.dependencies ||
        !compareDependencies oldDeps.devDependencies newDeps.devDependencies
    | _, _ => true

mutual

/-- Structural FileTree validity: every node is exactly one of file or
directory (enforced by the inductive) and sibling names are not repeated. -/
def nodeWF : FNode → Bool
  | FNode.file _ => true
  | FNode.directory ch => treeWF ch

def treeWF : FileTree → Bool
  | [] => true
  | (k, n) :: rest =>
    !((rest.map Prod.fst).contains k) && nodeWF n && treeWF rest

end

/-- A JSON value is primitive when it is not an object or array; strict
equality is reflexive exactly on these. -/
def jsPrim : Json → Bool
  | Json.obj _ => false
  | Json.arr _ => false
  | _ => true

/-- All values of a dependency record are primitive. -/
def depValuesPrim (d : DepMap) : Bool :=
  d.all fun p => jsPrim p.2

/-- All values of a dependency record are strings (version strings). -/
def depValuesStr (d : DepMap) : Bool :=
  d.all fun p => match p.2 with | Json.str _ => true | _ => false

/-! # Lifecycle status, metrics, effects -/

inductive ContainerStatus where
  | idle | booting | mounting | installing | running | ready | error
deriving DecidableEq, Repr

structure BootMetrics where
  bootTime : Nat
  mountTime : Nat
  installTime : Nat
  serverReadyTime : Nat
  totalTime : Nat
  cacheHit : Bool
deriving DecidableEq, Repr

/-- Observable effects of a run: calls into the sandbox runtime, event
emissions to subscribers, and fire-and-forget scheduling. -/
inductive Effect where
  | runtimeBoot
  | recordBootTime (t : Nat)
  | mountTree
  | mountSnapshot (pid : String) (image : Nat)
  | spawn (cmd : String) (args : List String)
  | killDev
  | killProc (id : String)
  | emitStatus (s : ContainerStatus)
  | emitOutput (s : String)
  | emitServerReady (url : String) (port : Nat)
  | emitError (msg : String)
  | emitMetrics (m : BootMetrics)
  | scheduleSnapshotSave (pid : String)
deriving DecidableEq, Repr

/-! # PerformanceMonitor.ts -/

/-- The partially accumulated metrics of the current run. -/
structure CurMetrics where
  bootTime : Option Nat := none
  mountTime : Option Nat := none
  installTime : Option Nat := none
  serverReadyTime : Option Nat := none
  cacheHit : Option Bool := none
deriving DecidableEq, Repr

structure MonitorState where
  timers : List (String × Nat) := []
  metrics : List BootMetrics := []
  current : CurMetrics := {}
deriving DecidableEq, Repr

namespace PerformanceMonitor

def timersSet (ts : List (String × Nat)) (k : String) (v : Nat) : List (String × Nat) :=
  match ts with
  | [] => [(k, v)]
  | (k0, v0) :: rest => if k0 = k then (k0, v) :: rest else (k0, v0) :: timersSet rest k v

def timersGet (ts : List (String × Nat)) (k : String) : Option Nat :=
  match ts with
  | [] => none
  | (k0, v0) :: rest => if k0 = k then some v0 else timersGet rest k

def timersDel (ts : List (String × Nat)) (k : String) : List (String × Nat) :=
  match ts with
  | [] => []
  | (k0, v0) :: rest => if k0 = k then rest else (k0, v0) :: timersDel rest k

def startTimer (name : String) (now : Nat) (m : MonitorState) : MonitorState :=
  { m with timers := timersSet m.timers name now }

/-- endTimer: a timer that was never started yields 0 (with a console
warning); otherwise the elapsed time, and the timer is removed. -/
def endTimer (name : String) (now : Nat) (m : MonitorState) : Nat × MonitorState :=
  match timersGet m.timers name with
  | none => (0, m)
  | some t0 => (now - t0, { m with timers := timersDel m.timers name })

def recordBootTime (t : Nat) (m : MonitorState) : MonitorState :=
  { m with current := { m.current with bootTime := some t } }

def recordMountTime (t : Nat) (m : MonitorState) : MonitorState :=
  { m with current := { m.current with mountTime := some t } }

def recordInstallTime (t : Nat) (m : MonitorState) : MonitorState :=
  { m with current := { m.current with installTime := some t } }

def recordServerReadyTime (t : Nat) (m : MonitorState) : MonitorState :=
  { m with current := { m.current with serverReadyTime := some t } }

def recordCacheHit (hit : Bool) (m : MonitorState) : MonitorState :=
  { m with current := { m.current with cacheHit := some hit } }

/-- finishMetrics: assemble the four phase durations (defaulting to 0), a
derived total and the cache-hit flag, push the record onto the history, and
reset the accumulator. -/
def finishMetrics (m : MonitorState) : BootMetrics × MonitorState :=
  let bt := m.current.bootTime.getD 0
  let mt := m.current.mountTime.getD 0
  let it := m.current.installTime.getD 0
  let st := m.current.serverReadyTime.getD 0
  let rec0 : BootMetrics :=
    { bootTime := bt, mountTime := mt, installTime := it, serverReadyTime := st
      totalTime := bt + mt + it + st, cacheHit := m.current.cacheHit.getD false }
  (rec0, { m with metrics := m.metrics ++ [rec0], current := {} })

def getLastMetrics (m : MonitorState) : Option BootMetrics :=
  m.metrics.getLast?

/-- Iterate finishMetrics k times (a sequence of k finished runs). -/
def finishIter : Nat → MonitorState → MonitorState
  | 0, m => m
  | k + 1, m => finishIter k (finishMetrics m).2

end PerformanceMonitor

/-! # OPFSStorage.ts -/

inductive SnapFormat where
  | binary | json
deriving DecidableEq, Repr

structure SnapshotMetadata where
  hash : String
  timestamp : Int
  format : SnapFormat
  hasNodeModules : Bool
  size : Nat
deriving DecidableEq, Repr

/-- One stored project record: the metadata file plus the snapshot payload
(the payload is opaque to the store; it is only handed to the runtime). -/
structure StoredEntry where
  meta : SnapshotMetadata
  image : Nat
deriving DecidableEq, Repr

structure OPFSState where
  supported : Bool
  maxCacheAge : Int := 7 * 24 * 60 * 60 * 1000
  entries : List (String × StoredEntry) := []
deriving DecidableEq, Repr

namespace OPFSStorage

def lookupEntry (st : OPFSState) (pid : String) : Option StoredEntry :=
  match st.entries.find? (fun e => e.1 = pid) with
  | some e => some e.2
  | none => none

def deleteProject (st : OPFSState) (pid : String) : OPFSState :=
  { st with entries := st.entries.filter (fun e => e.1 ≠ pid) }

/-- The digest validation of restoreSnapshot and hasValidSnapshot:
`expectedHash && metadata.hash !== expectedHash` (an empty string is falsy,
so an empty expected digest skips the check). -/
def digestCheckFails (meta : SnapshotMetadata) (expectedHash : Option String) : Bool :=
  match expectedHash with
  | some h => h != "" && meta.hash != h
  | none => false

/-- The expiry validation: `Date.now() - metadata.timestamp > maxCacheAge`. -/
def isExpired (st : OPFSState) (meta : SnapshotMetadata) (now : Int) : Bool :=
  st.maxCacheAge < now - meta.timestamp

/-- OPFSStorage.restoreSnapshot: read metadata first; on digest mismatch or
expiry delete the entry and report failure; otherwise hand the stored image
to the runtime's mount primitive (mountOk tells whether that call, an
external effect, succeeds; a mount failure is caught and reported as
failure without eviction). -/
def restoreSnapshot (st : OPFSState) (pid : String) (expectedHash : Option String)
    (now : Int) (mountOk : Bool) : Bool × OPFSState × List Effect :=
  if st.supported = false then (false, st, [])
  else
    match lookupEntry st pid with
    | none => (false, st, [])
    | some e =>
      if digestCheckFails e.meta expectedHash then
        (false, deleteProject st pid, [])
      else if isExpired st e.meta now then
        (false, deleteProject st pid, [])
      else if mountOk then
        (true, st, [Effect.mountSnapshot pid e.image])
      else
        (false, st, [Effect.mountSnapshot pid e.image])

/-- OPFSStorage.hasValidSnapshot: metadata present, digest check passes,
entry not expired. -/
def hasValidSnapshot (st : OPFSState) (pid : String) (expectedHash : Option String)
    (now : Int) : Bool :=
  match (if st.supported then lookupEntry st pid else none) with
  | none => false
  | some e => !digestCheckFails e.meta expectedHash && !isExpired st e.meta now

def listProjects (st : OPFSState) : List String :=
  if st.supported then st.entries.map Prod.fst else []

end OPFSStorage

/-! # WebContainerManager.ts: orchestrator state and environment -/

structure ManagerConfig where
  enablePreBoot : Bool
  cacheMaxSize : Nat
  cacheMaxAge : Int
  devCommand : String
  devArgs : List String
deriving DecidableEq, Repr

def DEFAULT_CONFIG : ManagerConfig :=
  { enablePreBoot := true
    cacheMaxSize := 500
    cacheMaxAge := 7 * 24 * 60 * 60 * 1000
    devCommand := "npm"
    devArgs := ["run", "dev"] }

/-- The external world of one orchestration run: results supplied by the
sandbox runtime and by collaborator functions that are out of scope. -/
structure Env where
  bootResult : Option Nat
  installExitCode : Nat
  devServerUrl : String
  devServerPort : Nat
  restoreMountOk : Bool
  now : Int
  hashFn : String → String
  stripFn : String → String
  config : ManagerConfig

/-- The mutable state of the WebContainerManager singleton, plus the clock
of performance.now and the log of observable effects. -/
@[ext]
structure MState where
  container : Option Nat := none
  bootPromise : Option Nat := none
  promiseCtr : Nat := 0
  status : ContainerStatus := ContainerStatus.idle
  processes : List (String × Nat) := []
  devProcess : Option Nat := none
  procCtr : Nat := 0
  serverUrl : Option String := none
  currentTree : Option FileTree := none
  currentProjectId : Option String := none
  outputBuffer : String := ""
  monitor : MonitorState := {}
  opfs : OPFSState
  clock : Nat := 0
  log : List Effect := []

namespace Manager

def logE (e : Effect) (s : MState) : MState :=
  { s with log := s.log ++ [e] }

/-- setStatus: assign and emit a status-change event only when the status
actually changes. -/
def setStatus (st : ContainerStatus) (s : MState) : MState :=
  if s.status = st then s
  else logE (Effect.emitStatus st) { s with status := st }

/-- appendOutput: strip control sequences, append to the buffer, emit. -/
def appendOutput (env : Env) (data : String) (s : MState) : MState :=
  let clean := env.stripFn data
  logE (Effect.emitOutput clean) { s with outputBuffer := s.outputBuffer ++ clean }

/-- performance.now, modelled as a strictly increasing counter. -/
def perfNow (s : MState) : Nat × MState :=
  (s.clock, { s with clock := s.clock + 1 })

def startT (name : String) (s : MState) : MState :=
  let (n, s) := perfNow s
  { s with monitor := PerformanceMonitor.startTimer name n s.monitor }

def endT (name : String) (s : MState) : Nat × MState :=
  let (n, s) := perfNow s
  let (t, mon) := PerformanceMonitor.endTimer name n s.monitor
  (t, { s with monitor := mon })

/-- The synchronous part of performBoot up to the await on the runtime's
boot call: status change, boot timer, and the boot request itself. -/
def performBootStart (s : MState) : MState :=
  let s := setStatus ContainerStatus.booting s
  let s := startT "boot" s
  logE Effect.runtimeBoot s

/-- The continuation of performBoot once the runtime's boot settles:
on success record the boot duration and store the container; on failure
set error status, clear the memoized promise, emit, and reject. -/
def performBootFinish (env : Env) (s : MState) : Except String Nat × MState :=
  match env.bootResult with
  | some c =>
    let (t, s) := endT "boot" s
    let s := { s with monitor := PerformanceMonitor.recordBootTime t s.monitor }
    let s := logE (Effect.recordBootTime t) s
    (Except.ok c, { s with container := some c })
  | none =>
    let s := setStatus ContainerStatus.error s
    let s := { s with bootPromise := none }
    let s := logE (Effect.emitError "boot failed") s
    (Except.error "boot failed", s)

/-- boot, run to completion in a sequential schedule: an existing container
is returned as is; an in-flight memoized promise is awaited (its body
completes now); otherwise a fresh performBoot is created and awaited. -/
def boot (env : Env) (s : MState) : Except String Nat × MState :=
  match s.container with
  | some c => (Except.ok c, s)
  | none =>
    match s.bootPromise with
    | some _ => performBootFinish env s
    | none =>
      let s := { s with bootPromise := some s.promiseCtr, promiseCtr := s.promiseCtr + 1 }
      performBootFinish env (performBootStart s)

/-- The synchronous portion of one boot() call, for re-entrancy analysis:
which promise the caller ends up awaiting, and the state after the
synchronous prefix ran. -/
inductive BootCall where
  | resolvedExisting (c : Nat)
  | awaitsInflight (p : Nat)
  | startsBoot (p : Nat)
deriving DecidableEq, Repr

def bootCallSync (s : MState) : BootCall × MState :=
  match s.container with
  | some c => (BootCall.resolvedExisting c, s)
  | none =>
    match s.bootPromise with
    | some p => (BootCall.awaitsInflight p, s)
    | none =>
      let p := s.promiseCtr
      let s := { s with bootPromise := some p, promiseCtr := p + 1 }
      (BootCall.startsBoot p, performBootStart s)

def bootCallResolve (call : BootCall) (r : Except String Nat) : Except String Nat :=
  match call with
  | BootCall.resolvedExisting c => Except.ok c
  | _ => r

/-- Two boot() calls where the second is issued while the first one's
promise is still in flight, then the in-flight performBoot settles and both
callers resolve. -/
def twoConcurrentBoots (env : Env) (s : MState) :
    Except String Nat × Except String Nat × MState :=
  let (a1, s1) := bootCallSync s
  let (a2, s2) := bootCallSync s1
  let (r, s3) :=
    match s2.container with
    | some c => (Except.ok c, s2)
    | none =>
      match s2.bootPromise with
      | some _ => performBootFinish env s2
      | none => (Except.error "no boot in flight", s2)
  (bootCallResolve a1 r, bootCallResolve a2 r, s3)

/-- killProcess: kill and forget a tracked process, if present. -/
def killProcess (s : MState) (id : String) : MState :=
  match s.processes.find? (fun p => p.1 = id) with
  | none => s
  | some _ =>
    logE (Effect.killProc id)
      { s with processes := eraseFirstKey s.processes id }
where
  eraseFirstKey : List (String × Nat) → String → List (String × Nat)
    | [], _ => []
    | (k, v) :: rest, id => if k = id then rest else (k, v) :: eraseFirstKey rest id

/-- destroy: kill every tracked process and the dev-server process, drop the
container and the memoized boot promise, clear url, tree and output, and go
back to idle. -/
def destroy (s : MState) : MState :=
  let s := (s.processes.map Prod.fst).foldl killProcess s
  let s :=
    match s.devProcess with
    | some _ => logE Effect.killDev { s with devProcess := none }
    | none => s
  let s := { s with container := none, bootPromise := none, serverUrl := none,
                    currentTree := none, outputBuffer := "" }
  setStatus ContainerStatus.idle s

/-- mount: boot if needed, mount the file tree into the runtime, record the
mount duration, remember the tree. -/
def mount (env : Env) (files : FileTree) (s : MState) : Except String Unit × MState :=
  match boot env s with
  | (Except.error e, s) => (Except.error e, s)
  | (Except.ok _, s) =>
    let s := setStatus ContainerStatus.mounting s
    let s := startT "mount" s
    let s := logE Effect.mountTree s
    let (t, s) := endT "mount" s
    let s := { s with monitor := PerformanceMonitor.recordMountTime t s.monitor }
    (Except.ok (), { s with currentTree := some files })

/-- installDependencies: spawn npm install, await its exit code, record the
install duration, and reject when the exit code is non-zero. The status is
set to installing at entry and is not changed again on the failure path. -/
def installDependencies (env : Env) (s : MState) : Except String Unit × MState :=
  match boot env s with
  | (Except.error e, s) => (Except.error e, s)
  | (Except.ok _, s) =>
    let s := setStatus ContainerStatus.installing s
    let s := startT "install" s
    let s := appendOutput env "Installing dependencies...\n" s
    let s := { s with monitor := PerformanceMonitor.recordCacheHit false s.monitor }
    let s := logE (Effect.spawn "npm" ["install"]) s
    let exitCode := env.installExitCode
    let (t, s) := endT "install" s
    let s := { s with monitor := PerformanceMonitor.recordInstallTime t s.monitor }
    if exitCode ≠ 0 then
      (Except.error ("npm install failed with exit code " ++ toString exitCode), s)
    else
      (Except.ok (), appendOutput env ("Dependencies installed in " ++ toString t ++ "ms\n") s)

/-- startDevServer force: reuse the running server unless forced; when
forced, kill the existing dev process first; then spawn the configured dev
command and await the runtime's server-ready signal. -/
def startDevServer (env : Env) (force : Bool) (s : MState) : Except String String × MState :=
  match boot env s with
  | (Except.error e, s) => (Except.error e, s)
  | (Except.ok _, s) =>
    match s.serverUrl, force with
    | some u, false => (Except.ok u, s)
    | _, _ =>
      let s :=
        match force, s.devProcess with
        | true, some _ => logE Effect.killDev { s with devProcess := none, serverUrl := none }
        | _, _ => s
      let s := setStatus ContainerStatus.running s
      let s := startT "serverReady" s
      let s := appendOutput env "Starting dev server...\n" s
      let s := logE (Effect.spawn env.config.devCommand env.config.devArgs)
                 { s with devProcess := some s.procCtr, procCtr := s.procCtr + 1 }
      let (t, s) := endT "serverReady" s
      let s := { s with monitor := PerformanceMonitor.recordServerReadyTime t s.monitor }
      let s := { s with serverUrl := some env.devServerUrl }
      let s := setStatus ContainerStatus.ready s
      let s := logE (Effect.emitServerReady env.devServerUrl env.devServerPort) s
      (Except.ok env.devServerUrl, s)

/-- The JavaScript fallback projectId || null of mountAndRun. -/
def jsOrNull (pid : Option String) : Option String :=
  match pid with
  | some p => if p = "" then none else some p
  | none => none

/-- mountAndRun: reset the output buffer, mount, install fresh, start the
server, finish and emit metrics, and schedule a best-effort snapshot save
when a project id was supplied and the store is supported. -/
def mountAndRun (env : Env) (files : FileTree) (projectId : Option String)
    (s : MState) : Except String String × MState :=
  let s := { s with outputBuffer := "", currentProjectId := jsOrNull projectId }
  match mount env files s with
  | (Except.error e, s) => (Except.error e, s)
  | (Except.ok _, s) =>
    match installDependencies env s with
    | (Except.error e, s) => (Except.error e, s)
    | (Except.ok _, s) =>
      match startDevServer env false s with
      | (Except.error e, s) => (Except.error e, s)
      | (Except.ok url, s) =>
        let (m, mon) := PerformanceMonitor.finishMetrics s.monitor
        let s := logE (Effect.emitMetrics m) { s with monitor := mon }
        let s :=
          match jsOrNull projectId, s.opfs.supported with
          | some p, true => logE (Effect.scheduleSnapshotSave p) s
          | _, _ => s
        (Except.ok url, s)

/-- restoreSnapshotFromOPFS: boot if needed (outside the try block), then
let the store validate and mount the snapshot; on success record a zero
install duration and a cache hit. -/
def restoreSnapshotFromOPFS (env : Env) (pid : String) (expectedHash : Option String)
    (s : MState) : Except String Bool × MState :=
  if s.opfs.supported = false then (Except.ok false, s)
  else
    match boot env s with
    | (Except.error e, s) => (Except.error e, s)
    | (Except.ok _, s) =>
      let s := setStatus ContainerStatus.mounting s
      let s := startT "mount" s
      let s := appendOutput env "Restoring from OPFS cache...\n" s
      let (restored, op, eff) :=
        OPFSStorage.restoreSnapshot s.opfs pid expectedHash env.now env.restoreMountOk
      let s := { s with opfs := op, log := s.log ++ eff }
      if restored = false then
        let (_, s) := endT "mount" s
        (Except.ok false, s)
      else
        let (t, s) := endT "mount" s
        let s := { s with monitor := PerformanceMonitor.recordMountTime t s.monitor }
        let s := { s with monitor := PerformanceMonitor.recordInstallTime 0 s.monitor }
        let s := { s with monitor := PerformanceMonitor.recordCacheHit true s.monitor }
        let s := { s with currentProjectId := some pid }
        let s := appendOutput env ("Snapshot restored in " ++ toString t ++ "ms\n") s
        (Except.ok true, s)

/-- The non-cached tail of smartStart: mount, install with the cache
disabled, start the server, emit metrics, and schedule the asynchronous
snapshot save for next time. -/
def smartStartFull (env : Env) (files : FileTree) (pid : String)
    (s : MState) : Except String String × MState :=
  match mount env files s with
  | (Except.error e, s) => (Except.error e, s)
  | (Except.ok _, s) =>
    match installDependencies env s with
    | (Except.error e, s) => (Except.error e, s)
    | (Except.ok _, s) =>
      match startDevServer env false s with
      | (Except.error e, s) => (Except.error e, s)
      | (Except.ok url, s) =>
        let (m, mon) := PerformanceMonitor.finishMetrics s.monitor
        let s := logE (Effect.emitMetrics m) { s with monitor := mon }
        let s := logE (Effect.scheduleSnapshotSave pid) s
        (Except.ok url, s)

/-- smartStart: compute the manifest digest, try a validated snapshot
restore, and on success start the server directly (no install); otherwise
fall back to the full path. -/
def smartStart (env : Env) (files : FileTree) (pid : String)
    (s : MState) : Except String String × MState :=
  let s := { s with outputBuffer := "", currentProjectId := some pid }
  let packageJson := (extractPackageJson files).getD ""
  let expectedHash := env.hashFn packageJson
  if s.opfs.supported = false then smartStartFull env files pid s
  else if OPFSStorage.hasValidSnapshot s.opfs pid (some expectedHash) env.now = false then
    smartStartFull env files pid s
  else
    match restoreSnapshotFromOPFS env pid (some expectedHash) s with
    | (Except.error e, s) => (Except.error e, s)
    | (Except.ok false, s) => smartStartFull env files pid s
    | (Except.ok true, s) =>
      match startDevServer env false s with
      | (Except.error e, s) => (Except.error e, s)
      | (Except.ok url, s) =>
        let (m, mon) := PerformanceMonitor.finishMetrics s.monitor
        (Except.ok url, logE (Effect.emitMetrics m) { s with monitor := mon })

end Manager

/-! # The per-handler try/catch dispatch of WebContainerManager.emit -/

/-- One subscribed handler, identified for observation, together with the
outcome of running its body (ok, or an exception it throws). -/
structure HandlerSpec where
  id : Nat
  outcome : Except String Unit

def invokeHandler (h : HandlerSpec) : Except String Unit :=
  h.outcome

/-- emit: iterate over the registered handlers in order; each invocation is
wrapped in its own try/catch, so a thrown exception is recorded (the console
error) and the iteration continues. Returns the ids invoked and the caught
exception messages; no exception escapes to the emitting operation. -/
def emitDispatch (hs : List HandlerSpec) : List Nat × List String :=
  hs.foldl
    (fun acc h =>
      match invokeHandler h with
      | Except.ok _ => (acc.1 ++ [h.id], acc.2)
      | Except.error m => (acc.1 ++ [h.id], acc.2 ++ [m]))
    ([], [])

/-! # Helper lemmas -/

theorem emitDispatch_foldl (hs : List HandlerSpec) (acc : List Nat × List String) :
    (hs.foldl
      (fun acc h =>
        match invokeHandler h with
        | Except.ok _ => (acc.1 ++ [h.id], acc.2)
        | Except.error m => (acc.1 ++ [h.id], acc.2 ++ [m]))
      acc).1 = acc.1 ++ hs.map HandlerSpec.id := by
  induction hs generalizing acc with
  | nil => simp
  | cons h rest ih =>
    simp only [List.foldl_cons, List.map_cons]
    cases hout : invokeHandler h <;> simp [hout, ih]

theorem finishIter_len (k : Nat) (m : MonitorState) :
    (PerformanceMonitor.finishIter k m).metrics.length = m.metrics.length + k := by
  induction k generalizing m with
  | zero => simp [PerformanceMonitor.finishIter]
  | succ n ih =>
    simp only [PerformanceMonitor.finishIter]
    rw [ih]
    simp [PerformanceMonitor.finishMetrics]
    omega

/-! # Claims -/

/-- C10. Event-handler failures are isolated: for every emission, every
registered handler is invoked in order even when other handlers throw (each
invocation sits in its own try/catch inside emit), and emitDispatch returns
a plain pair rather than an exception, so the lifecycle operation that
emitted the event continues normally. -/
theorem emit_isolates_handler_failures (hs : List HandlerSpec) :
    (emitDispatch hs).1 = hs.map HandlerSpec.id := by
  have h := emitDispatch_foldl hs ([], [])
  simpa [emitDispatch] using h

/-- C9 counterexample. The metrics history is not bounded: there is no fixed
bound N that the length of the finishMetrics history respects over all
sequences of finish calls. -/
theorem metrics_history_unbounded :
    ¬ ∃ N : Nat, ∀ k : Nat,
      (PerformanceMonitor.finishIter k {}).metrics.length ≤ N := by
  rintro ⟨N, h⟩
  have h2 := h (N + 1)
  rw [finishIter_len] at h2
  simp at h2

/-- C9 amended. Every finishMetrics call appends exactly one record to the
in-memory history, so after k finish calls the history holds the initial
length plus k entries; the history grows without bound. -/
theorem finishMetrics_history_grows (k : Nat) (m : MonitorState) :
    (PerformanceMonitor.finishIter k m).metrics.length = m.metrics.length + k := by
  induction k generalizing m with
  | zero => simp [PerformanceMonitor.finishIter]
  | succ n ih =>
    simp only [PerformanceMonitor.finishIter]
    rw [ih]
    simp [PerformanceMonitor.finishMetrics]
    omega

theorem killProcess_cons (s : MState) (k : String) (v : Nat) (tl : List (String × Nat))
    (h : s.processes = (k, v) :: tl) :
    Manager.killProcess s k =
      { s with processes := tl, log := s.log ++ [Effect.killProc k] } := by
  simp [Manager.killProcess, h, Manager.killProcess.eraseFirstKey, Manager.logE]

theorem killFold_spec (ps : List (String × Nat)) (s : MState) (h : s.processes = ps) :
    (ps.map Prod.fst).foldl Manager.killProcess s =
      { s with processes := [], log := s.log ++ ps.map (fun p => Effect.killProc p.1) } := by
  induction ps generalizing s with
  | nil =>
    simp only [List.map_nil, List.foldl_nil, List.append_nil]
    apply MState.ext <;> simp [h]
  | cons p tl ih =>
    obtain ⟨k, v⟩ := p
    simp only [List.map_cons, List.foldl_cons]
    rw [killProcess_cons s k v tl h]
    rw [ih _ (by simp)]
    apply MState.ext <;> simp

theorem destroy_fields (s : MState) :
    Manager.destroy s =
      { s with processes := [], devProcess := none, container := none, bootPromise := none,
               serverUrl := none, currentTree := none, outputBuffer := "",
               status := ContainerStatus.idle,
               log := s.log ++ s.processes.map (fun p => Effect.killProc p.1)
                        ++ (match s.devProcess with | some _ => [Effect.killDev] | none => [])
                        ++ (if s.status = ContainerStatus.idle then []
                            else [Effect.emitStatus ContainerStatus.idle]) } := by
  unfold Manager.destroy
  rw [killFold_spec s.processes s rfl]
  cases hdev : s.devProcess <;>
    by_cases hst : s.status = ContainerStatus.idle <;>
      simp only [Manager.setStatus, Manager.logE, hdev, hst] <;>
      apply MState.ext <;> simp [hdev, hst]

/-- C8 amended. destroy terminates all tracked processes and the dev-server
process, releases the runtime handle and the memoized boot promise, clears
the server url, the current tree and the output buffer, and returns the
status to idle; the currentProjectId field, however, is left unchanged (it
is not reset by destroy). A second destroy immediately afterwards leaves the
state exactly unchanged (idempotence). -/
theorem destroy_resets_state (s : MState) :
    (Manager.destroy s).processes = [] ∧
    (Manager.destroy s).devProcess = none ∧
    (Manager.destroy s).container = none ∧
    (Manager.destroy s).bootPromise = none ∧
    (Manager.destroy s).serverUrl = none ∧
    (Manager.destroy s).currentTree = none ∧
    (Manager.destroy s).outputBuffer = "" ∧
    (Manager.destroy s).status = ContainerStatus.idle ∧
    (Manager.destroy s).currentProjectId = s.currentProjectId ∧
    Manager.destroy (Manager.destroy s) = Manager.destroy s := by
  rw [destroy_fields s]
  refine ⟨by simp, by simp, by simp, by simp, by simp, by simp, by simp, by simp, by simp, ?_⟩
  rw [destroy_fields]
  apply MState.ext <;> simp

def sC8 : MState := { opfs := { supported := true }, currentProjectId := some "p1" }

/-- C8 counterexample. From a state whose current project id is "p1",
destroy leaves currentProjectId at some "p1" instead of resetting it to the
initial none, refuting the claim that every OrchestratorState field
(including currentProjectId) is reset to the initial idle state. -/
theorem destroy_keeps_currentProjectId :
    (Manager.destroy sC8).currentProjectId = some "p1" ∧
    (Manager.destroy sC8).currentProjectId ≠ none ∧
    (Manager.destroy sC8).status = ContainerStatus.idle := by decide

theorem zip_self_eq_map {α : Type} (l : List α) :
    l.zip l = l.map (fun a => (a, a)) := by
  induction l with
  | nil => rfl
  | cons a tl ih => simp [ih]

theorem depLookup_mem {d : DepMap} {k : String} {v : Json}
    (h : depLookup d k = some v) : (k, v) ∈ d := by
  induction d with
  | nil => simp [depLookup] at h
  | cons p tl ih =>
    obtain ⟨k0, v0⟩ := p
    simp only [depLookup] at h
    by_cases hk : k0 = k
    · rw [if_pos hk] at h
      cases h
      subst hk
      exact List.mem_cons_self _ _
    · rw [if_neg hk] at h
      exact List.mem_cons_of_mem _ (ih h)

theorem depLookup_isSome {d : DepMap} {k : String} :
    (depLookup d k).isSome = true ↔ k ∈ jsKeys d := by
  induction d with
  | nil => simp [depLookup, jsKeys]
  | cons p tl ih =>
    obtain ⟨k0, v0⟩ := p
    by_cases hk : k0 = k
    · simp [depLookup, jsKeys, hk]
    · simp [depLookup, jsKeys, hk, Ne.symm hk, ih]

theorem jsStrictEq_self {v : Json} (h : jsPrim v = true) : jsStrictEq v v = true := by
  cases v <;> simp_all [jsPrim, jsStrictEq]

theorem depValuesPrim_lookup {d : DepMap} {k : String} {v : Json}
    (hd : depValuesPrim d = true) (h : depLookup d k = some v) : jsPrim v = true := by
  have hm := depLookup_mem h
  simp only [depValuesPrim, List.all_eq_true] at hd
  exact hd (k, v) hm

theorem depValuesStr_prim {d : DepMap} (h : depValuesStr d = true) :
    depValuesPrim d = true := by
  simp only [depValuesStr, depValuesPrim, List.all_eq_true] at *
  intro p hp
  have hs := h p hp
  cases hv : p.2 <;> rw [hv] at hs <;> simp_all [jsPrim]

theorem compareDependencies_self {d : DepMap} (hd : depValuesPrim d = true) :
    compareDependencies d d = true := by
  unfold compareDependencies
  rw [if_neg (by simp)]
  rw [zip_self_eq_map, List.all_eq_true]
  intro x hx
  obtain ⟨k, hk, rfl⟩ := List.mem_map.mp hx
  simp only [beq_self_eq_true, Bool.true_and]
  cases hv : depLookup d k with
  | none => simp [jsStrictEqOpt, hv]
  | some v =>
    simpa [jsStrictEqOpt, hv] using jsStrictEq_self (depValuesPrim_lookup hd hv)

/-- C4 counterexample. The empty FileTree is structurally valid (trivially
satisfying the FileTree invariant) yet the detector applied to it against
itself reports changed = true, because no manifest can be extracted; so the
claim as stated over every valid FileTree fails. -/
theorem changed_on_self_without_manifest :
    treeWF ([] : FileTree) = true ∧
    hasDependencyChanged (some ([] : FileTree)) ([] : FileTree) = true := by decide

/-- C4 amended. For every FileTree that carries an extractable dependency
manifest whose declared dependency and devDependency values are primitive
(as version strings are), the detector applied to the tree against itself
reports no change; a tree without an extractable manifest compares as
changed even against itself. -/
theorem unchanged_tree_never_reinstalls (t : FileTree) (c : String)
    (hc : extractPackageJson t = some c)
    (h1 : depValuesPrim (parseDependencies c).dependencies = true)
    (h2 : depValuesPrim (parseDependencies c).devDependencies = true) :
    hasDependencyChanged (some t) t = false := by
  unfold hasDependencyChanged
  simp only [hc]
  simp [compareDependencies_self h1, compareDependencies_self h2]

def tC4 : FileTree :=
  [("package.json", FNode.file "\x7b\"dependencies\":\x7b\"react\":\"18\"\x7d\x7d"),
   ("src", FNode.directory [("index.js", FNode.file "render()")])]

/-- C4 witness: a concrete tree with a react dependency manifest is reported
unchanged against itself. -/
theorem unchanged_tree_never_reinstalls_witness :
    hasDependencyChanged (some tC4) tC4 = false :=
  unchanged_tree_never_reinstalls tC4
    "\x7b\"dependencies\":\x7b\"react\":\"18\"\x7d\x7d"
    (by decide) (by decide) (by decide)

def tBadJson : FileTree := [("package.json", FNode.file "x")]

def tEmptyManifest : FileTree := [("package.json", FNode.file "\x7b\x7d")]

/-- C5 counterexample. A tree whose manifest is present but unparseable
(contents "x") compared against a tree with an empty but valid manifest is
reported as unchanged: the parse failure is absorbed by the catch branch of
parseDependencies into two empty dependency records, which compare equal to
the empty records of the valid empty manifest. The claim demanded
changed = true whenever either manifest is unparseable. -/
theorem unparseable_manifest_not_changed :
    (jsonParse "x").isNone = true ∧
    extractPackageJson tBadJson = some "x" ∧
    hasDependencyChanged (some tBadJson) tEmptyManifest = false := by decide

/-- C5 amended. The detector fails safe toward reinstalling only on a
missing manifest: when there is no previous tree, or when either tree has no
extractable manifest (the file is absent, is a directory, or has empty
content), changed = true. A manifest that is present but unparseable is
instead treated as declaring no dependencies by the catch branch of
parseDependencies, so parse failure alone does not force changed = true. -/
theorem missing_manifest_forces_changed :
    (∀ nt : FileTree, hasDependencyChanged none nt = true) ∧
    (∀ (ot nt : FileTree),
      extractPackageJson ot = none ∨ extractPackageJson nt = none →
      hasDependencyChanged (some ot) nt = true) := by
  constructor
  · intro nt; rfl
  · intro ot nt h
    simp only [hasDependencyChanged]
    rcases h with h | h
    · rw [h]
    · rw [h]; cases extractPackageJson ot <;> rfl

/-- C5 witness: a tree without a package.json forces changed = true. -/
theorem missing_manifest_forces_changed_witness :
    hasDependencyChanged (some ([("app.js", FNode.file "1")] : FileTree)) tEmptyManifest = true :=
  missing_manifest_forces_changed.2 [("app.js", FNode.file "1")] tEmptyManifest
    (Or.inl (by decide))

/-- C6. compareDependencies is order-independent: two dependency records
with duplicate-free key sets that associate exactly the same value to every
key (in whatever serialization order), with version strings as values,
compare equal; hence two manifests with equivalent dependency sets in
different key order are reported as unchanged. -/
theorem compareDependencies_order_independent (d1 d2 : DepMap)
    (h1 : (jsKeys d1).Nodup) (h2 : (jsKeys d2).Nodup)
    (hlook : ∀ k, depLookup d1 k = depLookup d2 k)
    (hstr : depValuesStr d1 = true) :
    compareDependencies d1 d2 = true := by
  have hmem : ∀ k, k ∈ jsKeys d1 ↔ k ∈ jsKeys d2 := by
    intro k
    rw [← depLookup_isSome, ← depLookup_isSome, hlook k]
  have hperm : (jsKeys d1).Perm (jsKeys d2) :=
    (List.perm_ext_iff_of_nodup h1 h2).mpr hmem
  have hsort : sortKeys (jsKeys d1) = sortKeys (jsKeys d2) := by
    unfold sortKeys
    exact List.eq_of_perm_of_sorted
      ((List.perm_insertionSort _ _).trans
        (hperm.trans (List.perm_insertionSort _ _).symm))
      (List.sorted_insertionSort _ _) (List.sorted_insertionSort _ _)
  unfold compareDependencies
  rw [← hsort]
  rw [if_neg (by simp)]
  rw [zip_self_eq_map, List.all_eq_true]
  intro x hx
  obtain ⟨k, hk, rfl⟩ := List.mem_map.mp hx
  simp only [beq_self_eq_true, Bool.true_and]
  rw [← hlook k]
  have hkmem : k ∈ jsKeys d1 := (List.perm_insertionSort _ _).subset hk
  obtain ⟨v, hv⟩ := Option.isSome_iff_exists.mp (depLookup_isSome.mpr hkmem)
  rw [hv]
  simpa [jsStrictEqOpt] using
    jsStrictEq_self (depValuesPrim_lookup (depValuesStr_prim hstr) hv)

def d1W : DepMap := [("react", Json.str "18"), ("vite", Json.str "5")]

def d2W : DepMap := [("vite", Json.str "5"), ("react", Json.str "18")]

/-- C6 witness: the same two associations in the two possible key orders
compare equal. -/
theorem compareDependencies_order_independent_witness :
    compareDependencies d1W d2W = true :=
  compareDependencies_order_independent d1W d2W (by decide) (by decide)
    (by
      intro k
      by_cases hr : "react" = k
      · subst hr; rfl
      · by_cases hv : "vite" = k
        · subst hv; rfl
        · simp [d1W, d2W, depLookup, hr, hv])
    (by decide)

theorem deleteProject_not_listed (st : OPFSState) (pid : String) :
    pid ∉ OPFSStorage.listProjects (OPFSStorage.deleteProject st pid) := by
  unfold OPFSStorage.listProjects OPFSStorage.deleteProject
  split
  · simp only [List.mem_map]
    rintro ⟨a, ha, rfl⟩
    simp only [List.mem_filter, decide_eq_true_eq] at ha
    exact ha.2 rfl
  · simp

/-- C3 amended. restoreSnapshot reads the stored metadata first: when the
stored digest differs from a supplied non-empty expected digest, or the
entry's age exceeds the configured maximum, it reports failure, evicts the
entry (so the project id is absent from listProjects afterwards) and never
calls the runtime's mount primitive; conversely the stored image is handed
to mount only when the age check and the (possibly skipped) digest check
pass. A supplied empty expected digest is falsy in the source's guard and
skips digest validation entirely, which is why non-emptiness is required. -/
theorem restoreSnapshot_validates
    (st : OPFSState) (pid h : String) (e : StoredEntry) (now : Int) (mountOk : Bool)
    (hsup : st.supported = true)
    (hent : OPFSStorage.lookupEntry st pid = some e)
    (hne : h ≠ "") :
    ((e.meta.hash ≠ h ∨ st.maxCacheAge < now - e.meta.timestamp) →
      (OPFSStorage.restoreSnapshot st pid (some h) now mountOk).1 = false ∧
      pid ∉ OPFSStorage.listProjects (OPFSStorage.restoreSnapshot st pid (some h) now mountOk).2.1 ∧
      (OPFSStorage.restoreSnapshot st pid (some h) now mountOk).2.2 = []) ∧
    ((OPFSStorage.restoreSnapshot st pid (some h) now mountOk).2.2 ≠ [] →
      e.meta.hash = h ∧ ¬(st.maxCacheAge < now - e.meta.timestamp)) := by
  unfold OPFSStorage.restoreSnapshot
  rw [hsup, hent]
  simp only [Bool.true_eq_false, if_false]
  by_cases hmatch : e.meta.hash = h
  · have hdig : OPFSStorage.digestCheckFails e.meta (some h) = false := by
      simp [OPFSStorage.digestCheckFails, hmatch]
    rw [hdig]
    by_cases hexp : st.maxCacheAge < now - e.meta.timestamp
    · have : OPFSStorage.isExpired st e.meta now = true := by
        simpa [OPFSStorage.isExpired] using hexp
      rw [this]
      simp only [if_false, if_true, Bool.false_eq_true]
      refine ⟨fun _ => ⟨trivial, deleteProject_not_listed st pid, trivial⟩, ?_⟩
      intro hc
      simp at hc
    · have : OPFSStorage.isExpired st e.meta now = false := by
        simp [OPFSStorage.isExpired, hexp]
      rw [this]
      simp only [Bool.false_eq_true, if_false]
      constructor
      · rintro (hd | hx)
        · exact absurd hmatch hd
        · exact absurd hx hexp
      · intro _
        exact ⟨hmatch, hexp⟩
  · have hdig : OPFSStorage.digestCheckFails e.meta (some h) = true := by
      simp [OPFSStorage.digestCheckFails, hmatch, hne]
    rw [hdig]
    simp only [if_true]
    refine ⟨fun _ => ⟨trivial, deleteProject_not_listed st pid, trivial⟩, ?_⟩
    intro hc
    simp at hc

def entC3 : StoredEntry :=
  { meta := { hash := "d1", timestamp := 0, format := SnapFormat.binary,
              hasNodeModules := true, size := 10 }, image := 42 }

def stC3 : OPFSState := { supported := true, entries := [("p1", entC3)] }

/-- C3 witness: restoring project p1 with a mismatched digest fails, evicts
the entry, and never reaches the mount primitive. -/
theorem restoreSnapshot_validates_witness :
    (OPFSStorage.restoreSnapshot stC3 "p1" (some "other") 0 true).1 = false ∧
    "p1" ∉ OPFSStorage.listProjects
      (OPFSStorage.restoreSnapshot stC3 "p1" (some "other") 0 true).2.1 ∧
    (OPFSStorage.restoreSnapshot stC3 "p1" (some "other") 0 true).2.2 = [] :=
  (restoreSnapshot_validates stC3 "p1" "other" entC3 0 true rfl rfl
    (by decide)).1 (Or.inl (by decide))

theorem timersGet_set (ts : List (String × Nat)) (k : String) (v : Nat) :
    PerformanceMonitor.timersGet (PerformanceMonitor.timersSet ts k v) k = some v := by
  induction ts with
  | nil => simp [PerformanceMonitor.timersSet, PerformanceMonitor.timersGet]
  | cons p tl ih =>
    obtain ⟨k0, v0⟩ := p
    by_cases hk : k0 = k <;>
      simp [PerformanceMonitor.timersSet, PerformanceMonitor.timersGet, hk, ih]

/-- C7. Boot is memoized. From a state with no container and no in-flight
boot promise, a first boot() call starts exactly one performBoot; a second
call issued while that promise is in flight awaits the same promise without
starting another boot; both calls resolve to the same runtime instance;
exactly one runtime boot request and exactly one boot-duration metric record
are added to the log; and a later call after success reuses the stored
container directly. -/
theorem boot_memoized (env : Env) (s : MState) (c : Nat)
    (hc : s.container = none) (hp : s.bootPromise = none)
    (hb : env.bootResult = some c) :
    (Manager.twoConcurrentBoots env s).1 = Except.ok c ∧
    (Manager.twoConcurrentBoots env s).2.1 = Except.ok c ∧
    (Manager.twoConcurrentBoots env s).2.2.container = some c ∧
    (Manager.twoConcurrentBoots env s).2.2.log.count Effect.runtimeBoot
      = s.log.count Effect.runtimeBoot + 1 ∧
    (Manager.twoConcurrentBoots env s).2.2.log.countP
        (fun e => match e with | Effect.recordBootTime _ => true | _ => false)
      = s.log.countP
        (fun e => match e with | Effect.recordBootTime _ => true | _ => false) + 1 ∧
    (Manager.bootCallSync (Manager.twoConcurrentBoots env s).2.2).1
      = Manager.BootCall.resolvedExisting c := by
  by_cases hst : s.status = ContainerStatus.booting <;>
    simp [Manager.twoConcurrentBoots, Manager.bootCallSync, Manager.performBootStart,
          Manager.performBootFinish, Manager.setStatus, Manager.startT, Manager.endT,
          Manager.perfNow, Manager.logE, hc, hp, hb, hst, timersGet_set,
          PerformanceMonitor.startTimer, PerformanceMonitor.endTimer,
          PerformanceMonitor.recordBootTime, Manager.bootCallResolve,
          List.count_append, List.countP_append, List.count_cons, List.countP_cons]

def envC7 : Env :=
  { bootResult := some 7, installExitCode := 0, devServerUrl := "http://localhost:5173",
    devServerPort := 5173, restoreMountOk := true, now := 0,
    hashFn := fun x => x, stripFn := fun x => x, config := DEFAULT_CONFIG }

def sIdle : MState := { opfs := { supported := true } }

/-- C7 witness: from the idle initial state, two concurrent boot calls both
resolve to container 7 with a single runtime boot logged. -/
theorem boot_memoized_witness :
    (Manager.twoConcurrentBoots envC7 sIdle).1 = Except.ok 7 ∧
    (Manager.twoConcurrentBoots envC7 sIdle).2.1 = Except.ok 7 ∧
    (Manager.twoConcurrentBoots envC7 sIdle).2.2.container = some 7 ∧
    (Manager.twoConcurrentBoots envC7 sIdle).2.2.log.count Effect.runtimeBoot
      = sIdle.log.count Effect.runtimeBoot + 1 ∧
    (Manager.twoConcurrentBoots envC7 sIdle).2.2.log.countP
        (fun e => match e with | Effect.recordBootTime _ => true | _ => false)
      = sIdle.log.countP
        (fun e => match e with | Effect.recordBootTime _ => true | _ => false) + 1 ∧
    (Manager.bootCallSync (Manager.twoConcurrentBoots envC7 sIdle).2.2).1
      = Manager.BootCall.resolvedExisting 7 :=
  boot_memoized envC7 sIdle 7 rfl rfl rfl

/-- C2 amended. When the dependency-install process exits with a non-zero
exit code, installDependencies (and hence mountAndRun, which awaits it)
rejects with an error carrying that exit code; the orchestrator state
afterwards still has status installing — the code does not transition to the
error status on this path (the error status is only set by boot failures and
runtime-reported errors). -/
theorem install_failure_rejects (env : Env) (files : FileTree) (pid : Option String)
    (s : MState) (c : Nat)
    (hboot : s.container = some c ∨
      (s.container = none ∧ s.bootPromise = none ∧ env.bootResult = some c))
    (hexit : env.installExitCode ≠ 0) :
    (Manager.installDependencies env s).1 =
        Except.error ("npm install failed with exit code " ++ toString env.installExitCode) ∧
    (Manager.installDependencies env s).2.status = ContainerStatus.installing ∧
    (Manager.mountAndRun env files pid s).1 =
        Except.error ("npm install failed with exit code " ++ toString env.installExitCode) ∧
    (Manager.mountAndRun env files pid s).2.status = ContainerStatus.installing := by
  rcases hboot with hcs | ⟨hcn, hbp, hb⟩
  · cases hs : s.status <;>
      simp [Manager.mountAndRun, Manager.mount, Manager.installDependencies, Manager.boot,
            Manager.setStatus, Manager.startT, Manager.endT, Manager.perfNow, Manager.logE,
            Manager.appendOutput, hcs, hs, hexit, timersGet_set,
            PerformanceMonitor.startTimer, PerformanceMonitor.endTimer,
            PerformanceMonitor.recordMountTime, PerformanceMonitor.recordCacheHit,
            PerformanceMonitor.recordInstallTime]
  · cases hs : s.status <;>
      simp [Manager.mountAndRun, Manager.mount, Manager.installDependencies, Manager.boot,
            Manager.performBootStart, Manager.performBootFinish,
            Manager.setStatus, Manager.startT, Manager.endT, Manager.perfNow, Manager.logE,
            Manager.appendOutput, hcn, hbp, hb, hs, hexit, timersGet_set,
            PerformanceMonitor.startTimer, PerformanceMonitor.endTimer,
            PerformanceMonitor.recordBootTime,
            PerformanceMonitor.recordMountTime, PerformanceMonitor.recordCacheHit,
            PerformanceMonitor.recordInstallTime]

def envC2 : Env :=
  { bootResult := some 1, installExitCode := 1, devServerUrl := "http://localhost:5173",
    devServerPort := 5173, restoreMountOk := true, now := 0,
    hashFn := fun x => x, stripFn := fun x => x, config := DEFAULT_CONFIG }

def sC2 : MState := { opfs := { supported := false } }

/-- C2 counterexample. From the idle initial state, an install exiting with
code 1 makes mountAndRun reject with an error carrying the exit code, but
the status afterwards is installing, not the error status the claim
demands. -/
theorem install_failure_status_not_error :
    (Manager.mountAndRun envC2 [] none sC2).1 =
        Except.error "npm install failed with exit code 1" ∧
    (Manager.mountAndRun envC2 [] none sC2).2.status = ContainerStatus.installing ∧
    (Manager.mountAndRun envC2 [] none sC2).2.status ≠ ContainerStatus.error := by
  refine ⟨rfl, rfl, by decide⟩

theorem hasValidSnapshot_true (st : OPFSState) (pid h : String) (e : StoredEntry)
    (now : Int) (hsup : st.supported = true)
    (hent : OPFSStorage.lookupEntry st pid = some e)
    (hdig : e.meta.hash = h) (hage : now - e.meta.timestamp ≤ st.maxCacheAge) :
    OPFSStorage.hasValidSnapshot st pid (some h) now = true := by
  unfold OPFSStorage.hasValidSnapshot
  rw [hsup]
  simp [hent, OPFSStorage.digestCheckFails, OPFSStorage.isExpired, hdig, not_lt.mpr hage]

theorem restoreSnapshot_hit (st : OPFSState) (pid h : String) (e : StoredEntry)
    (now : Int) (hsup : st.supported = true)
    (hent : OPFSStorage.lookupEntry st pid = some e)
    (hdig : e.meta.hash = h) (hage : now - e.meta.timestamp ≤ st.maxCacheAge) :
    OPFSStorage.restoreSnapshot st pid (some h) now true =
      (true, st, [Effect.mountSnapshot pid e.image]) := by
  unfold OPFSStorage.restoreSnapshot
  rw [hsup]
  simp [hent, OPFSStorage.digestCheckFails, OPFSStorage.isExpired, hdig, not_lt.mpr hage]

theorem setStatus_container (st : ContainerStatus) (s : MState) :
    (Manager.setStatus st s).container = s.container := by
  unfold Manager.setStatus Manager.logE; split <;> rfl

theorem setStatus_bootPromise (st : ContainerStatus) (s : MState) :
    (Manager.setStatus st s).bootPromise = s.bootPromise := by
  unfold Manager.setStatus Manager.logE; split <;> rfl

theorem setStatus_promiseCtr (st : ContainerStatus) (s : MState) :
    (Manager.setStatus st s).promiseCtr = s.promiseCtr := by
  unfold Manager.setStatus Manager.logE; split <;> rfl

theorem setStatus_serverUrl (st : ContainerStatus) (s : MState) :
    (Manager.setStatus st s).serverUrl = s.serverUrl := by
  unfold Manager.setStatus Manager.logE; split <;> rfl

theorem setStatus_devProcess (st : ContainerStatus) (s : MState) :
    (Manager.setStatus st s).devProcess = s.devProcess := by
  unfold Manager.setStatus Manager.logE; split <;> rfl

theorem setStatus_procCtr (st : ContainerStatus) (s : MState) :
    (Manager.setStatus st s).procCtr = s.procCtr := by
  unfold Manager.setStatus Manager.logE; split <;> rfl

theorem setStatus_processes (st : ContainerStatus) (s : MState) :
    (Manager.setStatus st s).processes = s.processes := by
  unfold Manager.setStatus Manager.logE; split <;> rfl

theorem setStatus_currentTree (st : ContainerStatus) (s : MState) :
    (Manager.setStatus st s).currentTree = s.currentTree := by
  unfold Manager.setStatus Manager.logE; split <;> rfl

theorem setStatus_currentProjectId (st : ContainerStatus) (s : MState) :
    (Manager.setStatus st s).currentProjectId = s.currentProjectId := by
  unfold Manager.setStatus Manager.logE; split <;> rfl

theorem setStatus_outputBuffer (st : ContainerStatus) (s : MState) :
    (Manager.setStatus st s).outputBuffer = s.outputBuffer := by
  unfold Manager.setStatus Manager.logE; split <;> rfl

theorem setStatus_monitor (st : ContainerStatus) (s : MState) :
    (Manager.setStatus st s).monitor = s.monitor := by
  unfold Manager.setStatus Manager.logE; split <;> rfl

theorem setStatus_opfs (st : ContainerStatus) (s : MState) :
    (Manager.setStatus st s).opfs = s.opfs := by
  unfold Manager.setStatus Manager.logE; split <;> rfl

theorem setStatus_clock (st : ContainerStatus) (s : MState) :
    (Manager.setStatus st s).clock = s.clock := by
  unfold Manager.setStatus Manager.logE; split <;> rfl

theorem setStatus_status (st : ContainerStatus) (s : MState) :
    (Manager.setStatus st s).status = st := by
  unfold Manager.setStatus Manager.logE
  split
  · next h => exact h
  · rfl

theorem setStatus_log (st : ContainerStatus) (s : MState) :
    (Manager.setStatus st s).log =
      s.log ++ (if s.status = st then [] else [Effect.emitStatus st]) := by
  unfold Manager.setStatus Manager.logE
  split <;> simp_all

theorem count_ite_emit (P : Prop) [Decidable P] (st : ContainerStatus) (y : Effect)
    (hy : ∀ st0 : ContainerStatus, y ≠ Effect.emitStatus st0) :
    (if P then ([] : List Effect) else [Effect.emitStatus st]).count y = 0 := by
  split <;> simp [List.count_cons, beq_eq_false_iff_ne, (hy st).symm]

set_option maxHeartbeats 2000000 in
/-- C1. smartStart with a valid cached snapshot: when the store is supported
and holds, under the supplied project id, an entry whose stored digest
equals the manifest digest computed from the tree and whose age is within
the configured maximum, and the runtime accepts both the boot and the
snapshot mount (restore succeeds), then smartStart restores that snapshot
instead of installing: no npm install process is spawned, the finished
metrics record a zero install duration and a cache hit and are emitted, the
dev server is started (reusing the running one when a server url already
exists), and smartStart returns the server url. The dev-server launch
command is assumed distinct from the install command, as in the default
configuration. -/
theorem smartStart_cache_hit (env : Env) (files : FileTree) (pid : String)
    (s : MState) (c : Nat) (e : StoredEntry)
    (hboot : s.container = some c ∨
      (s.container = none ∧ s.bootPromise = none ∧ env.bootResult = some c))
    (hsup : s.opfs.supported = true)
    (hent : OPFSStorage.lookupEntry s.opfs pid = some e)
    (hdig : e.meta.hash = env.hashFn ((extractPackageJson files).getD ""))
    (hage : env.now - e.meta.timestamp ≤ s.opfs.maxCacheAge)
    (hmount : env.restoreMountOk = true)
    (hcfg : (env.config.devCommand, env.config.devArgs) ≠ ("npm", ["install"])) :
    (Manager.smartStart env files pid s).1 =
        Except.ok (s.serverUrl.getD env.devServerUrl) ∧
    (Manager.smartStart env files pid s).2.log.count (Effect.spawn "npm" ["install"])
      = s.log.count (Effect.spawn "npm" ["install"]) ∧
    (PerformanceMonitor.getLastMetrics (Manager.smartStart env files pid s).2.monitor).map
        BootMetrics.installTime = some 0 ∧
    (PerformanceMonitor.getLastMetrics (Manager.smartStart env files pid s).2.monitor).map
        BootMetrics.cacheHit = some true ∧
    (∃ m, PerformanceMonitor.getLastMetrics (Manager.smartStart env files pid s).2.monitor
        = some m ∧ Effect.emitMetrics m ∈ (Manager.smartStart env files pid s).2.log) ∧
    (∀ u, s.serverUrl = some u →
      (Manager.smartStart env files pid s).1 = Except.ok u ∧
      (Manager.smartStart env files pid s).2.serverUrl = some u) ∧
    (s.serverUrl = none →
      (Manager.smartStart env files pid s).2.serverUrl = some env.devServerUrl) := by
  have hval := hasValidSnapshot_true s.opfs pid
    (env.hashFn ((extractPackageJson files).getD "")) e env.now hsup hent hdig hage
  have hrest := restoreSnapshot_hit s.opfs pid
    (env.hashFn ((extractPackageJson files).getD "")) e env.now hsup hent hdig hage
  have hne : Effect.spawn env.config.devCommand env.config.devArgs
      ≠ Effect.spawn "npm" ["install"] := by
    intro h
    injection h with h1 h2
    exact hcfg (by rw [h1, h2])
  have hbeqf : (Effect.spawn env.config.devCommand env.config.devArgs
      == Effect.spawn "npm" ["install"]) = false := beq_eq_false_iff_ne.mpr hne
  rcases hboot with hcs | ⟨hcn, hbp, hb⟩
  · rcases hsu : s.serverUrl with _ | u <;>
      simp [Manager.smartStart, Manager.restoreSnapshotFromOPFS, Manager.startDevServer,
            Manager.boot, Manager.startT, Manager.endT, Manager.perfNow, Manager.logE,
            Manager.appendOutput, PerformanceMonitor.finishMetrics,
            PerformanceMonitor.getLastMetrics, PerformanceMonitor.startTimer,
            PerformanceMonitor.endTimer,
            PerformanceMonitor.recordMountTime, PerformanceMonitor.recordInstallTime,
            PerformanceMonitor.recordCacheHit, PerformanceMonitor.recordServerReadyTime,
            setStatus_container, setStatus_bootPromise, setStatus_promiseCtr,
            setStatus_serverUrl, setStatus_devProcess, setStatus_procCtr,
            setStatus_processes, setStatus_currentTree, setStatus_currentProjectId,
            setStatus_outputBuffer, setStatus_monitor, setStatus_opfs, setStatus_clock,
            setStatus_status, setStatus_log, count_ite_emit,
            hsup, hval, hrest, hmount, hcs, hsu, hbeqf, timersGet_set,
            List.count_append, List.count_cons, List.getLast?_concat]
  · rcases hsu : s.serverUrl with _ | u <;>
      simp [Manager.smartStart, Manager.restoreSnapshotFromOPFS, Manager.startDevServer,
            Manager.boot, Manager.performBootStart, Manager.performBootFinish,
            Manager.startT, Manager.endT, Manager.perfNow, Manager.logE,
            Manager.appendOutput, PerformanceMonitor.finishMetrics,
            PerformanceMonitor.getLastMetrics, PerformanceMonitor.startTimer,
            PerformanceMonitor.endTimer, PerformanceMonitor.recordBootTime,
            PerformanceMonitor.recordMountTime, PerformanceMonitor.recordInstallTime,
            PerformanceMonitor.recordCacheHit, PerformanceMonitor.recordServerReadyTime,
            setStatus_container, setStatus_bootPromise, setStatus_promiseCtr,
            setStatus_serverUrl, setStatus_devProcess, setStatus_procCtr,
            setStatus_processes, setStatus_currentTree, setStatus_currentProjectId,
            setStatus_outputBuffer, setStatus_monitor, setStatus_opfs, setStatus_clock,
            setStatus_status, setStatus_log, count_ite_emit,
            hsup, hval, hrest, hmount, hcn, hbp, hb, hsu, hbeqf, timersGet_set,
            List.count_append, List.count_cons, List.getLast?_concat]

def entC1 : StoredEntry :=
  { meta := { hash := "\x7b\"dependencies\":\x7b\"react\":\"18\"\x7d\x7d", timestamp := 0,
              format := SnapFormat.binary, hasNodeModules := true, size := 5 }, image := 9 }

def sC1 : MState :=
  { container := some 3, opfs := { supported := true, entries := [("p1", entC1)] } }

def envC1 : Env :=
  { bootResult := some 3, installExitCode := 0, devServerUrl := "http://localhost:5173",
    devServerPort := 5173, restoreMountOk := true, now := 1000,
    hashFn := fun x => x, stripFn := fun x => x, config := DEFAULT_CONFIG }

/-- C1 witness: a second visit to project p1 with the identical tree
restores from the snapshot: the returned url is the dev server url, no npm
install is spawned, and the emitted metrics carry installTime 0 and a cache
hit. -/
theorem smartStart_cache_hit_witness :
    (Manager.smartStart envC1 tC4 "p1" sC1).1 = Except.ok "http://localhost:5173" ∧
    (Manager.smartStart envC1 tC4 "p1" sC1).2.log.count (Effect.spawn "npm" ["install"]) = 0 ∧
    (PerformanceMonitor.getLastMetrics (Manager.smartStart envC1 tC4 "p1" sC1).2.monitor).map
        BootMetrics.installTime = some 0 ∧
    (PerformanceMonitor.getLastMetrics (Manager.smartStart envC1 tC4 "p1" sC1).2.monitor).map
        BootMetrics.cacheHit = some true :=
  have h := smartStart_cache_hit envC1 tC4 "p1" sC1 3 entC1 (Or.inl rfl) rfl rfl rfl
    (by decide) rfl (by decide)
  ⟨h.1, h.2.1, h.2.2.1, h.2.2.2.1⟩

/-- C2 witness: from the idle initial state with install exit code 1,
mountAndRun rejects with the error carrying the exit code and the status
stays at installing. -/
theorem install_failure_rejects_witness :
    (Manager.mountAndRun envC2 [] none sIdle).1 =
      Except.error ("npm install failed with exit code " ++ toString envC2.installExitCode) ∧
    (Manager.mountAndRun envC2 [] none sIdle).2.status = ContainerStatus.installing :=
  have h := install_failure_rejects envC2 [] none sIdle 1 (Or.inr ⟨rfl, rfl, rfl⟩) (by decide)
  ⟨h.2.2.1, h.2.2.2⟩

/-- C3 counterexample. A restore call whose supplied expected digest is the
empty string, differing from the stored digest "d1", succeeds and hands the
image to the runtime's mount primitive without evicting the entry: the
JavaScript truthiness guard of restoreSnapshot skips digest validation for
a falsy expected digest. So the claim that every restore call with a
mismatched supplied digest fails and evicts is false at this input. -/
theorem restore_empty_digest_skips_check :
    ("" : String) ≠ entC3.meta.hash ∧
    (OPFSStorage.restoreSnapshot stC3 "p1" (some "") 0 true).1 = true ∧
    (OPFSStorage.restoreSnapshot stC3 "p1" (some "") 0 true).2.2
      = [Effect.mountSnapshot "p1" entC3.image] ∧
    "p1" ∈ OPFSStorage.listProjects
      (OPFSStorage.restoreSnapshot stC3 "p1" (some "") 0 true).2.1 := by decide
